import Mathlib

/-!
Shallow embedding of the resumable batch-upload core of the
youtube-bulk-upload repository (TypeScript implementation), covering:

* the progress data model (`UploadProgress`, `FailedUpload`) from
  src/types/index.ts;
* row parsing (`parseVideoRow`) from src/utils/dataParser.ts;
* the orchestration loop (`processVideoRows`) from
  src/core/spreadsheetProcessor.ts and its driver
  (`processSpreadsheet`, `retryFailedUploads`) from
  src/core/YouTubeBulkUploader.ts;
* progress persistence (`serializeProgress` / `deserializeProgress`) from
  src/utils/progressSerializer.ts and `ProgressTracker.loadProgress`;
* the per-item pipeline (`VideoProcessor.processVideo`) from
  src/core/VideoProcessor.ts.

Modelling conventions:
* JavaScript `Set<string>` is modelled as a duplicate-free `List String`
  in insertion order; `Set.add` is `setAdd`, `Set.delete` is `setDelete`.
* Exceptions are modelled with `Except String`; a thrown value is
  `Except.error` carrying the message.
* External collaborators (the video processor, `JSON.parse`,
  `JSON.stringify`) are passed in as function parameters, since their
  bodies are not part of the orchestration code under verification.
* The observable interactions of one orchestration pass (skips,
  processing attempts, inter-item delays) are recorded as a trace of
  `Event`s, in program order.
-/

/-- `VideoData` from src/types/index.ts: the parsed work item of one row. -/
structure VideoData where
  driveLink : String
  title : String
  description : String
  tags : List String
  uniqueId : String
deriving DecidableEq, Repr

/-- One entry of `failedUploads` (src/types/index.ts). -/
structure FailedUpload where
  uniqueId : String
  error : String
  timestamp : String
deriving DecidableEq, Repr

/-- `UploadProgress` from src/types/index.ts.  `processedIds` models the
JavaScript `Set<string>` as an insertion-ordered list without duplicates. -/
structure UploadProgress where
  processedIds : List String
  lastProcessedRow : Nat
  failedUploads : List FailedUpload
deriving DecidableEq, Repr

/-- The fresh empty progress state. -/
def emptyProgress : UploadProgress :=
  { processedIds := [], lastProcessedRow := 0, failedUploads := [] }

/-- JavaScript `Set.add`: appends the element unless already present
(insertion order preserved, first occurrence wins). -/
def setAdd (s : List String) (x : String) : List String :=
  if x ∈ s then s else s ++ [x]

/-- JavaScript `Set.delete`: removes the element if present. -/
def setDelete (s : List String) (x : String) : List String :=
  s.filter (fun y => y ≠ x)

/-- JavaScript `String.prototype.split(',')` on the character list:
delimiters are not merged and empty segments are kept, so
`"a,,b,"` yields `["a", "", "b", ""]` and `""` yields `[""]`. -/
def splitCommaAux : List Char → List Char → List String
  | [], acc => [String.mk acc.reverse]
  | c :: cs, acc =>
    if c = ',' then String.mk acc.reverse :: splitCommaAux cs []
    else splitCommaAux cs (c :: acc)

/-- JavaScript `tagString.split(',')`. -/
def jsSplitComma (s : String) : List String :=
  splitCommaAux s.data []

/-- JavaScript `String.prototype.trim()`: strip leading and trailing
whitespace (modelled with `Char.isWhitespace`). -/
def jsTrim (s : String) : String :=
  String.mk (((s.data.dropWhile Char.isWhitespace).reverse.dropWhile
    Char.isWhitespace).reverse)

/-- `parseVideoRow` from src/utils/dataParser.ts.  A row with fewer than 5
cells is invalid; otherwise the first five cells are destructured and the
row is invalid when any of driveLink, title, description, uniqueId is the
empty string (JavaScript falsiness of an empty string).  The tags cell is
split on commas with each segment trimmed; an empty tags cell (falsy)
yields the empty tag list. -/
def parseVideoRow (row : List String) : Option VideoData :=
  match row with
  | driveLink :: title :: description :: tagString :: uniqueId :: _ =>
    if driveLink = "" ∨ title = "" ∨ description = "" ∨ uniqueId = "" then
      none
    else
      some { driveLink := driveLink, title := title, description := description,
             tags := if tagString = "" then [] else (jsSplitComma tagString).map jsTrim,
             uniqueId := uniqueId }
  | _ => none

/-- Observable interactions of the orchestration loop, in program order.
`invalidSkip` covers the `parseVideoRow` failure branch (the `!row` branch
of the source cannot fire in this model, where every row is a list of
cells).  `delay` is the fixed 2000 ms inter-item pause. -/
inductive Event where
  | invalidSkip (i : Nat)
  | dedupeSkip (i : Nat) (id : String)
  | success (i : Nat) (id : String) (youtubeId : String)
  | failure (i : Nat) (id : String) (msg : String)
  | delay (i : Nat)
deriving DecidableEq, Repr

/-- One iteration of the `processVideoRows` loop body
(src/core/spreadsheetProcessor.ts, lines 78-114) at row index `i`:
parse, dedupe check, processing attempt with success/failure bookkeeping,
then the rate-limiting delay.  `proc` is the injected
`videoProcessor.processVideo` outcome, `ts` the timestamp recorded by
`markVideoFailed` for a failure at row `i`. -/
def stepRow (proc : VideoData → Except String String) (ts : Nat → String)
    (i : Nat) (row : List String) (p : UploadProgress) : UploadProgress × List Event :=
  match parseVideoRow row with
  | none => (p, [Event.invalidSkip i])
  | some videoData =>
    if videoData.uniqueId ∈ p.processedIds then
      (p, [Event.dedupeSkip i videoData.uniqueId])
    else
      match proc videoData with
      | Except.ok youtubeId =>
        ({ p with processedIds := setAdd p.processedIds videoData.uniqueId,
                  lastProcessedRow := i + 1 },
         [Event.success i videoData.uniqueId youtubeId, Event.delay i])
      | Except.error msg =>
        ({ p with failedUploads :=
             p.failedUploads ++ [{ uniqueId := videoData.uniqueId, error := msg,
                                   timestamp := ts i }] },
         [Event.failure i videoData.uniqueId msg, Event.delay i])

/-- The `for` loop of `processVideoRows` over the remaining indexed rows. -/
def processRows (proc : VideoData → Except String String) (ts : Nat → String) :
    List (Nat × List String) → UploadProgress → UploadProgress × List Event
  | [], p => (p, [])
  | (i, row) :: rest, p =>
    let step := stepRow proc ts i row p
    let tail := processRows proc ts rest step.1
    (tail.1, step.2 ++ tail.2)

/-- `processVideoRows` from src/core/spreadsheetProcessor.ts: iterate the
loop body from `startRow` to the end of `rows`. -/
def processVideoRows (proc : VideoData → Except String String) (ts : Nat → String)
    (rows : List (List String)) (startRow : Nat) (p : UploadProgress) :
    UploadProgress × List Event :=
  processRows proc ts (rows.enum.drop startRow) p

/-- `YouTubeBulkUploader.processSpreadsheet` (lines 23-49): an empty sheet
short-circuits; otherwise one pass runs from `max(1, lastProcessedRow)`. -/
def processSpreadsheet (proc : VideoData → Except String String) (ts : Nat → String)
    (rows : List (List String)) (p : UploadProgress) : UploadProgress × List Event :=
  if rows.length = 0 then (p, [])
  else processVideoRows proc ts rows (max 1 p.lastProcessedRow) p

/-- The reset phase of `YouTubeBulkUploader.retryFailedUploads`
(lines 65-80), returning the final state together with the two snapshots
persisted by the two `saveProgress` calls, in order: first with
`failedUploads` cleared, then additionally with each failed id deleted
from `processedIds`. -/
def retryResetWrites (p : UploadProgress) : UploadProgress × List UploadProgress :=
  let failedUploads := p.failedUploads
  let p1 := { p with failedUploads := [] }
  let p2 := { p1 with processedIds :=
    failedUploads.foldl (fun s f => setDelete s f.uniqueId) p1.processedIds }
  (p2, [p1, p2])

/-- The state after the reset phase of `retryFailedUploads`. -/
def retryReset (p : UploadProgress) : UploadProgress :=
  (retryResetWrites p).1

/-- `YouTubeBulkUploader.retryFailedUploads` (lines 65-84): reset, then
re-invoke `processSpreadsheet` on the reset state. -/
def retryFailedUploads (proc : VideoData → Except String String) (ts : Nat → String)
    (rows : List (List String)) (p : UploadProgress) : UploadProgress × List Event :=
  processSpreadsheet proc ts rows (retryReset p)

/-- The ids of the rows actually handed to the item processor in a trace
(success or failure events). -/
def attemptedIds (events : List Event) : List String :=
  events.filterMap (fun e =>
    match e with
    | Event.success _ id _ => some id
    | Event.failure _ id _ => some id
    | _ => none)

/-- `ProgressTracker.markVideoProcessed` (src/services/ProgressTracker.ts,
lines 33-36), state transition only: `processedIds.add(uniqueId)`. -/
def markVideoProcessed (p : UploadProgress) (uniqueId : String) : UploadProgress :=
  { p with processedIds := setAdd p.processedIds uniqueId }

/-- JSON values, the result type of a successful `JSON.parse`. -/
inductive Json where
  | null
  | bool (b : Bool)
  | num (n : Int)
  | str (s : String)
  | arr (elems : List Json)
  | obj (fields : List (String × Json))

/-- JavaScript property access `v.k`: throws a TypeError on `null`,
returns the field (or `undefined`, modelled as `none`) on an object, and
`undefined` on any other value.  (The source never accesses properties of
`undefined` itself, so `Json.null` is the only throwing receiver here.) -/
def jsGetField : Json → String → Except String (Option Json)
  | Json.null, _ => Except.error "TypeError: cannot read properties of null"
  | Json.obj fields, k => Except.ok (fields.lookup k)
  | _, _ => Except.ok none

/-- JavaScript nullish coalescing `v ?? d`. -/
def jsNullish (v : Option Json) (d : Json) : Json :=
  match v with
  | none => d
  | some Json.null => d
  | some j => j

/-- Elementwise string extraction from a JSON array.  JavaScript itself
would accept non-string elements into the set; values outside the
persisted `string[]` schema are modelled as a thrown TypeError, which the
surrounding catch collapses to the empty state.  No claim exercises that
path. -/
def jsToStrList : List Json → Except String (List String)
  | [] => Except.ok []
  | Json.str s :: rest => (jsToStrList rest).map (fun l => s :: l)
  | _ :: _ => Except.error "model: non-string element"

/-- JavaScript `new Set(v)` for the string sets of this program: arrays
dedupe in insertion order, strings iterate as characters, anything else
is not iterable and throws a TypeError. -/
def jsNewSet : Json → Except String (List String)
  | Json.arr xs => (jsToStrList xs).map (fun l => l.foldl setAdd [])
  | Json.str s => Except.ok ((s.data.map (fun c => String.mk [c])).foldl setAdd [])
  | _ => Except.error "TypeError: value is not iterable"

/-- Reading one persisted `failedUploads` entry back.  As with
`jsToStrList`, a value outside the persisted schema is modelled as a
throw. -/
def jsToFailed : Json → Except String FailedUpload
  | Json.obj fields =>
    match fields.lookup "uniqueId", fields.lookup "error", fields.lookup "timestamp" with
    | some (Json.str u), some (Json.str e), some (Json.str t) =>
      Except.ok { uniqueId := u, error := e, timestamp := t }
    | _, _, _ => Except.error "model: malformed failedUploads entry"
  | _ => Except.error "model: malformed failedUploads entry"

/-- Reading the persisted `failedUploads` array back. -/
def jsToFailedList : Json → Except String (List FailedUpload)
  | Json.arr xs => xs.foldr (fun x acc => do
      let f ← jsToFailed x
      let rest ← acc
      Except.ok (f :: rest)) (Except.ok [])
  | _ => Except.error "model: failedUploads is not an array"

/-- Reading the persisted `lastProcessedRow` back (a non-negative number
in every state this program writes; other values are modelled as a
throw). -/
def jsToRow : Json → Except String Nat
  | Json.num n => if n < 0 then Except.error "model: negative row" else Except.ok n.toNat
  | _ => Except.error "model: lastProcessedRow is not a number"

/-- The `try` block of `deserializeProgress`
(src/utils/progressSerializer.ts, lines 13-19) applied to an already
parsed JSON document: each field is read with `?? default` and coerced;
any throw inside propagates to the catch. -/
def deserializeTryBody (j : Json) : Except String UploadProgress := do
  let ids ← jsNewSet (jsNullish (← jsGetField j "processedIds") (Json.arr []))
  let row ← jsToRow (jsNullish (← jsGetField j "lastProcessedRow") (Json.num 0))
  let failed ← jsToFailedList (jsNullish (← jsGetField j "failedUploads") (Json.arr []))
  Except.ok { processedIds := ids, lastProcessedRow := row, failedUploads := failed }

/-- JavaScript `try { body } catch { handler }`. -/
def jsTryCatch (body : Except String UploadProgress)
    (handler : String → Except String UploadProgress) : Except String UploadProgress :=
  match body with
  | Except.ok p => Except.ok p
  | Except.error e => handler e

/-- `deserializeProgress` (src/utils/progressSerializer.ts, lines 12-27)
with the possibility of an escaping exception made explicit in the result
type.  `parse` is the `JSON.parse` oracle (`none` models a throw); the
catch returns the fresh empty state.  The whole body sits inside the
try/catch, so an `Except.error` result would mean an exception escaping
to the caller. -/
def deserializeProgressExc (parse : String → Option Json) (data : String) :
    Except String UploadProgress :=
  jsTryCatch
    (do
      let j ← match parse data with
        | none => Except.error "SyntaxError: Unexpected token"
        | some j => Except.ok j
      deserializeTryBody j)
    (fun _ => Except.ok emptyProgress)

/-- `deserializeProgress` as the total function the source exposes. -/
def deserializeProgress (parse : String → Option Json) (data : String) : UploadProgress :=
  match deserializeProgressExc parse data with
  | Except.ok p => p
  | Except.error _ => emptyProgress

/-- `ProgressTracker.loadProgress` (src/services/ProgressTracker.ts,
lines 16-26): `fileOps.readFile` returns `none` for a missing/unreadable
file; `!content` is also true for the empty string. -/
def loadProgress (parse : String → Option Json) (content : Option String) : UploadProgress :=
  match content with
  | none => emptyProgress
  | some s => if s = "" then emptyProgress else deserializeProgress parse s

/-- The object literal built by `serializeProgress`
(src/utils/progressSerializer.ts, lines 3-10) before `JSON.stringify`. -/
def serializeProgressJson (p : UploadProgress) : Json :=
  Json.obj
    [("processedIds", Json.arr (p.processedIds.map Json.str)),
     ("lastProcessedRow", Json.num p.lastProcessedRow),
     ("failedUploads", Json.arr (p.failedUploads.map (fun f =>
        Json.obj [("uniqueId", Json.str f.uniqueId), ("error", Json.str f.error),
                  ("timestamp", Json.str f.timestamp)])))]

/-- `serializeProgress`: `JSON.stringify` (the `stringify` oracle) of the
object literal. -/
def serializeProgress (stringify : Json → String) (p : UploadProgress) : String :=
  stringify (serializeProgressJson p)

/-- Outcome environment for one `VideoProcessor.processVideo` call
(src/core/VideoProcessor.ts, lines 118-159): the results of the injected
collaborator calls, in the order the source makes them.  `fileId` is the
result of `extractFileIdFromDriveLink`, `unlinkErr` is `some e` when
`fileOps.unlink` (a bare `fs.unlinkSync`) throws `e`. -/
structure ProcEnv where
  fileId : Option String
  mkdirRes : Except String Unit
  downloadRes : Except String Unit
  uploadRes : Except String String
  unlinkErr : Option String

/-- Observable outcome of one `processVideo` call: the value or error
surfaced to the caller, whether the scratch file still exists afterwards,
and whether cleanup (`fileOps.unlink`) was invoked at all. -/
structure ProcOutcome where
  result : Except String String
  scratchExists : Bool
  unlinkCalled : Bool

/-- `VideoProcessor.processVideo` control flow: throw on an invalid drive
link; propagate mkdir/download failures (before the `try`, so no cleanup
runs and no scratch file exists); then `try { upload } finally { unlink }`.
Per JavaScript semantics of `finally`, when `unlink` itself throws its
error supersedes the upload's outcome, whether that outcome was a return
or a throw; when `unlink` returns normally the upload's outcome stands
and the scratch file is gone. -/
def processVideo (env : ProcEnv) : ProcOutcome :=
  match env.fileId with
  | none => { result := Except.error "Invalid Google Drive link",
              scratchExists := false, unlinkCalled := false }
  | some _ =>
    match env.mkdirRes with
    | Except.error e => { result := Except.error e, scratchExists := false,
                          unlinkCalled := false }
    | Except.ok _ =>
      match env.downloadRes with
      | Except.error e => { result := Except.error e, scratchExists := false,
                            unlinkCalled := false }
      | Except.ok _ =>
        match env.unlinkErr with
        | none => { result := env.uploadRes, scratchExists := false,
                    unlinkCalled := true }
        | some e => { result := Except.error e, scratchExists := true,
                      unlinkCalled := true }

example : parseVideoRow ["d", "t", "s", "a,,b,", "id"] =
    some { driveLink := "d", title := "t", description := "s",
           tags := ["a", "", "b", ""], uniqueId := "id" } := by decide

example : parseVideoRow ["d", "t", "s", " ", "id"] =
    some { driveLink := "d", title := "t", description := "s",
           tags := [""], uniqueId := "id" } := by decide

example : parseVideoRow ["d", "", "s", "x", "id"] = none := by decide

/-! Concrete work list of the spec's running example: a header row and two
data rows with ids v1 and v2. -/

/-- The header row (row index 0, never visited by a pass). -/
def headerRow : List String := ["Drive Link", "Title", "Description", "Tags", "ID"]

/-- Row index 1, id v1. -/
def rowA : List String := ["dA", "Title A", "Desc A", "", "v1"]

/-- Row index 2, id v2. -/
def rowB : List String := ["dB", "Title B", "Desc B", "", "v2"]

/-- The example work list. -/
def demoRows : List (List String) := [headerRow, rowA, rowB]

/-- Processor outcome: v1 fails with "boom", anything else succeeds. -/
def procV1Fails : VideoData → Except String String := fun vd =>
  if vd.uniqueId = "v1" then Except.error "boom" else Except.ok "yt2"

/-- Processor outcome: v2 fails with "quota exceeded", anything else
succeeds. -/
def procV2Quota : VideoData → Except String String := fun vd =>
  if vd.uniqueId = "v2" then Except.error "quota exceeded" else Except.ok "ytA"

/-- Processor outcome: every item succeeds. -/
def procAllOk : VideoData → Except String String := fun _ => Except.ok "yt"

/-- A fixed timestamp source. -/
def ts0 : Nat → String := fun _ => "2024-01-01T00:00:00.000Z"

/-- Whether an event is the inter-item delay. -/
def isDelayEvent : Event → Bool
  | Event.delay _ => true
  | _ => false

/-- C1 (code_bug evaluation): run one pass from the empty state in which
v1 (row 1) fails and v2 (row 2) succeeds; the pass leaves
lastProcessedRow = 3 and failures = [v1].  `retryFailedUploads` then
clears the failure list and removes v1 from `completed`, but the
re-invoked pass starts at max(1, lastProcessedRow) = 3 and therefore
visits no row at all: its trace is empty, nothing is attempted, and v1 is
still missing from `completed` afterwards — the previously failed row
below the saved cursor is never reprocessed, contrary to the claim (and
to the source's own comment that re-processing "will skip successful
uploads and retry failed ones"). -/
theorem c1_retry_skips_failed_row_below_cursor :
    (processSpreadsheet procV1Fails ts0 demoRows emptyProgress).1 =
      { processedIds := ["v2"], lastProcessedRow := 3,
        failedUploads := [{ uniqueId := "v1", error := "boom", timestamp := ts0 1 }] } ∧
    (retryFailedUploads procAllOk ts0 demoRows
        (processSpreadsheet procV1Fails ts0 demoRows emptyProgress).1).2 = [] ∧
    "v1" ∉ (retryFailedUploads procAllOk ts0 demoRows
        (processSpreadsheet procV1Fails ts0 demoRows emptyProgress).1).1.processedIds := by
  decide

/-- C2 (counterexample): in the spec's example run (rowA/v1 succeeds,
rowB/v2 fails with "quota exceeded", starting empty), the pass records
lastProcessedRow = 2 — the successful row's index plus one — not 1 as the
claim states. -/
theorem c2_counterexample :
    (processSpreadsheet procV2Quota ts0 demoRows emptyProgress).1.lastProcessedRow = 2 ∧
    (processSpreadsheet procV2Quota ts0 demoRows emptyProgress).1.lastProcessedRow ≠ 1 := by
  decide

/-- C2 (amended): same scenario with the cursor values the code actually
produces.  After the first pass: completed = {v1}, lastProcessedRow = 2
(successful index 1 plus one), exactly one failure entry for v2 with
reason "quota exceeded".  A second pass with unchanged inputs attempts
only v2, and on its success yields completed = {v1, v2},
lastProcessedRow = 3, with the old failure entry preserved unchanged. -/
theorem c2_amended :
    (processSpreadsheet procV2Quota ts0 demoRows emptyProgress).1 =
      { processedIds := ["v1"], lastProcessedRow := 2,
        failedUploads := [{ uniqueId := "v2", error := "quota exceeded",
                            timestamp := ts0 2 }] } ∧
    attemptedIds (processSpreadsheet procAllOk ts0 demoRows
        (processSpreadsheet procV2Quota ts0 demoRows emptyProgress).1).2 = ["v2"] ∧
    (processSpreadsheet procAllOk ts0 demoRows
        (processSpreadsheet procV2Quota ts0 demoRows emptyProgress).1).1 =
      { processedIds := ["v1", "v2"], lastProcessedRow := 3,
        failedUploads := [{ uniqueId := "v2", error := "quota exceeded",
                            timestamp := ts0 2 }] } := by
  decide

/-- C5 (counterexample): a pass over a work list whose single data row
carries an id already in `completed` produces exactly one dedupe-skip
event and no delay event at all — the loop body `continue`s before the
rate-limiting delay, so the delay does not follow a skip-by-dedupe. -/
theorem c5_counterexample :
    (processSpreadsheet procAllOk ts0 [headerRow, ["d", "t", "s", "", "video1"]]
        { processedIds := ["video1"], lastProcessedRow := 0, failedUploads := [] }).2 =
      [Event.dedupeSkip 1 "video1"] ∧
    ((processSpreadsheet procAllOk ts0 [headerRow, ["d", "t", "s", "", "video1"]]
        { processedIds := ["video1"], lastProcessedRow := 0,
          failedUploads := [] }).2.filter isDelayEvent) = [] := by
  decide

/-- C5 (amended): the inter-item delay is emitted for exactly the rows
that underwent an actual processing attempt (success or failure); rows
skipped because their id is already in `completed` — like invalid rows —
are not followed by a delay. -/
theorem c5_amended (proc : VideoData → Except String String) (ts : Nat → String)
    (i : Nat) (row : List String) (p : UploadProgress) :
    Event.delay i ∈ (stepRow proc ts i row p).2 ↔
      ∃ vd, parseVideoRow row = some vd ∧ vd.uniqueId ∉ p.processedIds := by
  cases h : parseVideoRow row with
  | none => simp [stepRow, h]
  | some vd =>
    by_cases hmem : vd.uniqueId ∈ p.processedIds
    · simp [stepRow, h, hmem]
    · cases hp : proc vd <;> simp [stepRow, h, hmem, hp]

/-- C4: per-row semantics for a row actually handed to the item
processor (the row parses and its id is not yet completed).  On success
the id is added to `completed` and the cursor is set to exactly the row
index plus one (and nothing else changes); on failure exactly one failure
entry with the item's id, the error reason and the recorded timestamp is
appended, and the cursor — like `completed` — is left untouched. -/
theorem c4_step_semantics (proc : VideoData → Except String String) (ts : Nat → String)
    (i : Nat) (row : List String) (p : UploadProgress) (vd : VideoData)
    (y m : String)
    (hparse : parseVideoRow row = some vd)
    (hnew : vd.uniqueId ∉ p.processedIds) :
    (proc vd = Except.ok y →
      stepRow proc ts i row p =
        ({ p with processedIds := setAdd p.processedIds vd.uniqueId,
                  lastProcessedRow := i + 1 },
         [Event.success i vd.uniqueId y, Event.delay i])) ∧
    (proc vd = Except.error m →
      stepRow proc ts i row p =
        ({ p with failedUploads :=
             p.failedUploads ++ [{ uniqueId := vd.uniqueId, error := m,
                                   timestamp := ts i }] },
         [Event.failure i vd.uniqueId m, Event.delay i])) := by
  constructor <;> intro hp <;> simp [stepRow, hparse, hnew, hp]

/-- The parsed work item of `rowA`. -/
def vdA : VideoData :=
  { driveLink := "dA", title := "Title A", description := "Desc A",
    tags := [], uniqueId := "v1" }

/-- Witness for C4 at a concrete successful row. -/
theorem c4_step_semantics_witness :
    (procAllOk vdA = Except.ok "yt" →
      stepRow procAllOk ts0 1 rowA emptyProgress =
        ({ emptyProgress with processedIds := setAdd emptyProgress.processedIds "v1",
                              lastProcessedRow := 2 },
         [Event.success 1 "v1" "yt", Event.delay 1])) ∧
    (procAllOk vdA = Except.error "m" →
      stepRow procAllOk ts0 1 rowA emptyProgress =
        ({ emptyProgress with failedUploads :=
             emptyProgress.failedUploads ++ [{ uniqueId := "v1", error := "m",
                                               timestamp := ts0 1 }] },
         [Event.failure 1 "v1" "m", Event.delay 1])) :=
  c4_step_semantics procAllOk ts0 1 rowA emptyProgress vdA "yt" "m"
    (by decide) (by decide)

/-- C3 (counterexample): when the upload step throws ("Upload quota
exceeded") and the scratch-file removal in the `finally` block itself
throws ("EACCES: unlink failed"), the JavaScript `finally` semantics make
the unlink error supersede the upload's: the caller sees the cleanup
error, not the upload's own, and the scratch file is still present —
cleanup failures are neither swallowed nor kept below the original
error. -/
theorem c3_counterexample :
    (processVideo { fileId := some "fid", mkdirRes := Except.ok (),
                    downloadRes := Except.ok (),
                    uploadRes := Except.error "Upload quota exceeded",
                    unlinkErr := some "EACCES: unlink failed" }).result =
      Except.error "EACCES: unlink failed" ∧
    (processVideo { fileId := some "fid", mkdirRes := Except.ok (),
                    downloadRes := Except.ok (),
                    uploadRes := Except.error "Upload quota exceeded",
                    unlinkErr := some "EACCES: unlink failed" }).result ≠
      Except.error "Upload quota exceeded" ∧
    (processVideo { fileId := some "fid", mkdirRes := Except.ok (),
                    downloadRes := Except.ok (),
                    uploadRes := Except.error "Upload quota exceeded",
                    unlinkErr := some "EACCES: unlink failed" }).scratchExists = true := by
  refine ⟨rfl, ?_, rfl⟩
  intro h
  exact absurd (Except.error.inj h) (by decide)

/-- C3 (amended): once the upload step is reached (valid link, mkdir and
download succeeded), the scratch-file removal is invoked on every exit
path of the upload step — whether the upload returned or threw.  When the
removal itself succeeds, the scratch file is absent and the caller sees
exactly the upload's own outcome; but when the removal throws, its error
propagates and replaces the upload's outcome (it is not swallowed). -/
theorem c3_amended (env : ProcEnv) (fid e : String)
    (hfid : env.fileId = some fid)
    (hmkdir : env.mkdirRes = Except.ok ())
    (hdl : env.downloadRes = Except.ok ()) :
    (processVideo env).unlinkCalled = true ∧
    (env.unlinkErr = none →
      (processVideo env).result = env.uploadRes ∧
      (processVideo env).scratchExists = false) ∧
    (env.unlinkErr = some e →
      (processVideo env).result = Except.error e ∧
      (processVideo env).scratchExists = true) := by
  cases henv : env.unlinkErr with
  | none =>
    refine ⟨by simp [processVideo, hfid, hmkdir, hdl, henv], ?_, ?_⟩
    · intro _
      constructor <;> simp [processVideo, hfid, hmkdir, hdl, henv]
    · intro hu
      exact absurd hu (by simp)
  | some e2 =>
    refine ⟨by simp [processVideo, hfid, hmkdir, hdl, henv], ?_, ?_⟩
    · intro hu
      exact absurd hu (by simp)
    · intro hu
      obtain rfl : e2 = e := by injection hu
      constructor <;> simp [processVideo, hfid, hmkdir, hdl, henv]

/-- Witness for C3 (amended) at a concrete environment with a failing
upload and a successful cleanup. -/
theorem c3_amended_witness :
    (processVideo { fileId := some "fid", mkdirRes := Except.ok (),
                    downloadRes := Except.ok (),
                    uploadRes := Except.error "Upload quota exceeded",
                    unlinkErr := none }).unlinkCalled = true ∧
    ((none : Option String) = none →
      (processVideo { fileId := some "fid", mkdirRes := Except.ok (),
                      downloadRes := Except.ok (),
                      uploadRes := Except.error "Upload quota exceeded",
                      unlinkErr := none }).result = Except.error "Upload quota exceeded" ∧
      (processVideo { fileId := some "fid", mkdirRes := Except.ok (),
                      downloadRes := Except.ok (),
                      uploadRes := Except.error "Upload quota exceeded",
                      unlinkErr := none }).scratchExists = false) ∧
    ((none : Option String) = some "e" →
      (processVideo { fileId := some "fid", mkdirRes := Except.ok (),
                      downloadRes := Except.ok (),
                      uploadRes := Except.error "Upload quota exceeded",
                      unlinkErr := none }).result = Except.error "e" ∧
      (processVideo { fileId := some "fid", mkdirRes := Except.ok (),
                      downloadRes := Except.ok (),
                      uploadRes := Except.error "Upload quota exceeded",
                      unlinkErr := none }).scratchExists = true) :=
  c3_amended { fileId := some "fid", mkdirRes := Except.ok (),
               downloadRes := Except.ok (),
               uploadRes := Except.error "Upload quota exceeded",
               unlinkErr := none } "fid" "e" rfl rfl rfl

/-- Membership in `setDelete`. -/
theorem mem_setDelete (s : List String) (x id : String) :
    id ∈ setDelete s x ↔ id ∈ s ∧ id ≠ x := by
  simp [setDelete]

/-- Folding `setDelete` over a failure list removes exactly the failed
ids. -/
theorem mem_foldl_setDelete (fails : List FailedUpload) (s : List String) (id : String) :
    id ∈ fails.foldl (fun acc f => setDelete acc f.uniqueId) s ↔
      id ∈ s ∧ ∀ f ∈ fails, f.uniqueId ≠ id := by
  induction fails generalizing s with
  | nil => simp
  | cons f fs ih =>
    simp only [List.foldl_cons, ih, mem_setDelete, List.mem_cons]
    constructor
    · rintro ⟨⟨hs, hne⟩, hall⟩
      exact ⟨hs, fun g hg => by
        rcases hg with rfl | hg
        · exact fun h => hne h.symm
        · exact hall g hg⟩
    · rintro ⟨hs, hall⟩
      exact ⟨⟨hs, fun h => hall f (Or.inl rfl) h.symm⟩, fun g hg => hall g (Or.inr hg)⟩

/-- C7: the reset phase of `retryFailedUploads` empties the failure list,
removes from `completed` exactly the ids that appeared in the failure
list (a no-op for ids never completed), leaves the cursor untouched, and
the last persisted snapshot is exactly the resulting state. -/
theorem c7_retry_reset_frame (p : UploadProgress) :
    (retryReset p).failedUploads = [] ∧
    (retryReset p).lastProcessedRow = p.lastProcessedRow ∧
    (∀ id, id ∈ (retryReset p).processedIds ↔
      id ∈ p.processedIds ∧ ∀ f ∈ p.failedUploads, f.uniqueId ≠ id) ∧
    (retryResetWrites p).2.getLast? = some (retryReset p) := by
  refine ⟨rfl, rfl, ?_, rfl⟩
  intro id
  exact mem_foldl_setDelete p.failedUploads p.processedIds id

/-- Membership in `setAdd`. -/
theorem mem_setAdd (s : List String) (x y : String) :
    y ∈ setAdd s x ↔ y ∈ s ∨ y = x := by
  by_cases h : x ∈ s
  · simp only [setAdd, if_pos h]
    constructor
    · exact Or.inl
    · rintro (hy | rfl)
      · exact hy
      · exact h
  · simp [setAdd, h]

/-- The element just added is a member. -/
theorem mem_setAdd_self (s : List String) (x : String) : x ∈ setAdd s x :=
  (mem_setAdd s x x).mpr (Or.inr rfl)

/-- Membership after rebuilding a set by folding `setAdd` (the model of
`new Set(array)`). -/
theorem mem_foldl_setAdd (l acc : List String) (y : String) :
    y ∈ l.foldl setAdd acc ↔ y ∈ acc ∨ y ∈ l := by
  induction l generalizing acc with
  | nil => simp
  | cons x xs ih =>
    simp only [List.foldl_cons, ih, mem_setAdd, List.mem_cons]
    tauto

/-- Reading back an array of JSON strings yields the original strings. -/
theorem jsToStrList_map (l : List String) :
    jsToStrList (l.map Json.str) = Except.ok l := by
  induction l with
  | nil => rfl
  | cons s rest ih => simp [jsToStrList, ih, Except.map]

/-- The JSON object written for one `failedUploads` entry. -/
def failedToJson (f : FailedUpload) : Json :=
  Json.obj [("uniqueId", Json.str f.uniqueId), ("error", Json.str f.error),
            ("timestamp", Json.str f.timestamp)]

/-- Reading back one serialized failure entry yields the entry. -/
theorem jsToFailed_failedToJson (f : FailedUpload) :
    jsToFailed (failedToJson f) = Except.ok f := rfl

/-- Reading back the serialized failure array yields the original list. -/
theorem jsToFailedList_map (l : List FailedUpload) :
    jsToFailedList (Json.arr (l.map failedToJson)) = Except.ok l := by
  induction l with
  | nil => rfl
  | cons f rest ih =>
    simp only [jsToFailedList, List.map_cons, List.foldr_cons]
    simp only [jsToFailedList] at ih
    rw [ih]
    simp [jsToFailed_failedToJson, bind, Except.bind]

/-- Reading back a serialized non-negative row number yields it. -/
theorem jsToRow_nat (n : Nat) : jsToRow (Json.num n) = Except.ok n := by
  simp [jsToRow, Int.toNat_natCast]

/-- A pass never removes an id from `completed`: one loop iteration
preserves membership. -/
theorem mem_processedIds_stepRow (proc : VideoData → Except String String)
    (ts : Nat → String) (i : Nat) (row : List String) (p : UploadProgress)
    (id : String) (h : id ∈ p.processedIds) :
    id ∈ (stepRow proc ts i row p).1.processedIds := by
  cases hp : parseVideoRow row with
  | none => simpa [stepRow, hp] using h
  | some vd =>
    by_cases hm : vd.uniqueId ∈ p.processedIds
    · simpa [stepRow, hp, hm] using h
    · cases hpr : proc vd with
      | ok y =>
        simp only [stepRow, hp, hm, hpr, if_neg hm]
        exact (mem_setAdd p.processedIds vd.uniqueId id).mpr (Or.inl h)
      | error m => simpa [stepRow, hp, hm, hpr] using h

/-- One loop iteration never attempts an id that is already in
`completed`. -/
theorem attempted_stepRow (proc : VideoData → Except String String)
    (ts : Nat → String) (i : Nat) (row : List String) (p : UploadProgress)
    (id : String) (h : id ∈ p.processedIds) :
    id ∉ attemptedIds (stepRow proc ts i row p).2 := by
  cases hp : parseVideoRow row with
  | none => simp [stepRow, hp, attemptedIds]
  | some vd =>
    by_cases hm : vd.uniqueId ∈ p.processedIds
    · simp [stepRow, hp, hm, attemptedIds]
    · cases hpr : proc vd with
      | ok y =>
        simp only [stepRow, hp, hm, hpr, if_neg hm, attemptedIds]
        intro hmem
        simp at hmem
        exact hm (hmem ▸ h)
      | error m =>
        simp only [stepRow, hp, hm, hpr, if_neg hm, attemptedIds]
        intro hmem
        simp at hmem
        exact hm (hmem ▸ h)

/-- An id already in `completed` is never attempted anywhere in a pass. -/
theorem attempted_processRows (proc : VideoData → Except String String)
    (ts : Nat → String) (l : List (Nat × List String)) (p : UploadProgress)
    (id : String) (h : id ∈ p.processedIds) :
    id ∉ attemptedIds (processRows proc ts l p).2 := by
  induction l generalizing p with
  | nil => simp [processRows, attemptedIds]
  | cons ir rest ih =>
    obtain ⟨i, row⟩ := ir
    simp only [processRows, attemptedIds, List.filterMap_append, List.mem_append]
    rintro (hl | hr)
    · exact attempted_stepRow proc ts i row p id h hl
    · exact ih (stepRow proc ts i row p).1
        (mem_processedIds_stepRow proc ts i row p id h) hr

/-- Round trip through the persisted JSON document: reading back what
`serializeProgress` writes restores the state (the processed-id set is
rebuilt by `new Set(...)` in insertion order). -/
theorem deserializeTryBody_serialize (q : UploadProgress) :
    deserializeTryBody (serializeProgressJson q) =
      Except.ok { processedIds := q.processedIds.foldl setAdd [],
                  lastProcessedRow := q.lastProcessedRow,
                  failedUploads := q.failedUploads } := by
  have h1 : jsGetField (serializeProgressJson q) "processedIds" =
      Except.ok (some (Json.arr (q.processedIds.map Json.str))) := rfl
  have h2 : jsGetField (serializeProgressJson q) "lastProcessedRow" =
      Except.ok (some (Json.num q.lastProcessedRow)) := rfl
  have h3 : jsGetField (serializeProgressJson q) "failedUploads" =
      Except.ok (some (Json.arr (q.failedUploads.map failedToJson))) := rfl
  simp [deserializeTryBody, h1, h2, h3, jsNullish, jsNewSet, jsToStrList_map,
        jsToRow_nat, jsToFailedList_map, bind, Except.bind, Except.map]

/-- C6: once `markVideoProcessed(id)` has run and the resulting state has
been persisted and reloaded (`serializeProgress` fed through
`deserializeProgress`, with the `JSON.parse` oracle `parse` inverting the
`JSON.stringify` oracle `stringify` on this document), the reloaded state
still contains `id` in `completed`, and a subsequent orchestration pass —
over any rows, from any start index — never hands an item with that id to
the item processor. -/
theorem c6_persisted_id_survives_reload (parse : String → Option Json)
    (stringify : Json → String) (p : UploadProgress) (id : String)
    (proc : VideoData → Except String String) (ts : Nat → String)
    (rows : List (List String)) (startRow : Nat)
    (hparse : parse (serializeProgress stringify (markVideoProcessed p id)) =
      some (serializeProgressJson (markVideoProcessed p id))) :
    id ∈ (deserializeProgress parse
      (serializeProgress stringify (markVideoProcessed p id))).processedIds ∧
    id ∉ attemptedIds (processVideoRows proc ts rows startRow
      (deserializeProgress parse
        (serializeProgress stringify (markVideoProcessed p id)))).2 := by
  have hdes : deserializeProgress parse
      (serializeProgress stringify (markVideoProcessed p id)) =
      { processedIds := (markVideoProcessed p id).processedIds.foldl setAdd [],
        lastProcessedRow := (markVideoProcessed p id).lastProcessedRow,
        failedUploads := (markVideoProcessed p id).failedUploads } := by
    simp [deserializeProgress, deserializeProgressExc, jsTryCatch, hparse,
          deserializeTryBody_serialize, bind, Except.bind]
  have hid : id ∈ (markVideoProcessed p id).processedIds :=
    mem_setAdd_self p.processedIds id
  have hmem : id ∈ (deserializeProgress parse
      (serializeProgress stringify (markVideoProcessed p id))).processedIds := by
    rw [hdes]
    exact (mem_foldl_setAdd _ _ _).mpr (Or.inr hid)
  exact ⟨hmem, attempted_processRows proc ts _ _ id hmem⟩

/-- Witness for C6: a concrete state, id, oracle pair and work list. -/
theorem c6_persisted_id_survives_reload_witness :
    "v1" ∈ (deserializeProgress
      (fun _ => some (serializeProgressJson (markVideoProcessed emptyProgress "v1")))
      (serializeProgress (fun _ => "doc") (markVideoProcessed emptyProgress "v1"))).processedIds ∧
    "v1" ∉ attemptedIds (processVideoRows procAllOk ts0 demoRows 1
      (deserializeProgress
        (fun _ => some (serializeProgressJson (markVideoProcessed emptyProgress "v1")))
        (serializeProgress (fun _ => "doc")
          (markVideoProcessed emptyProgress "v1")))).2 :=
  c6_persisted_id_survives_reload
    (fun _ => some (serializeProgressJson (markVideoProcessed emptyProgress "v1")))
    (fun _ => "doc") emptyProgress "v1" procAllOk ts0 demoRows 1 rfl

/-- Whether a modelled call completed without an escaping exception. -/
def isOkExcept : Except String UploadProgress → Bool
  | Except.ok _ => true
  | Except.error _ => false

/-- C8: `loadProgress` returns the fresh empty state when the persisted
file is missing (or empty, also falsy in the source) and when its
contents do not parse; and `deserializeProgress` is total — for every
parse oracle and every input string the try/catch yields a state, never
an escaping exception. -/
theorem c8_load_failsafe (parse : String → Option Json) (content : Option String)
    (s : String)
    (h : content = none ∨ (content = some s ∧ parse s = none)) :
    loadProgress parse content = emptyProgress ∧
    isOkExcept (deserializeProgressExc parse s) = true := by
  constructor
  · rcases h with rfl | ⟨rfl, hp⟩
    · rfl
    · by_cases hs : s = ""
      · simp [loadProgress, hs]
      · simp [loadProgress, hs, deserializeProgress, deserializeProgressExc,
              jsTryCatch, hp, bind, Except.bind]
  · cases hp : parse s with
    | none => simp [deserializeProgressExc, jsTryCatch, hp, bind, Except.bind, isOkExcept]
    | some j =>
      cases hb : deserializeTryBody j with
      | ok q =>
        simp [deserializeProgressExc, jsTryCatch, hp, hb, bind, Except.bind, isOkExcept]
      | error e =>
        simp [deserializeProgressExc, jsTryCatch, hp, hb, bind, Except.bind, isOkExcept]

/-- Witness for C8 at a missing file and an oracle that always fails. -/
theorem c8_load_failsafe_witness :
    loadProgress (fun _ => none) none = emptyProgress ∧
    isOkExcept (deserializeProgressExc (fun _ => none) "not json") = true :=
  c8_load_failsafe (fun _ => none) none "not json" (Or.inl rfl)

/-- C9: a row parses to `invalid` exactly when it has fewer than 5 cells
or any of the reference (drive link), title, description, or id cells is
empty; a row that parses carries as tags the comma-split, segmentwise
trimmed contents of the tags cell, with an empty tags cell yielding the
empty tag list. -/
theorem c9_parse_row_spec (row : List String) (vd : VideoData) :
    (parseVideoRow row = none ↔
      row.length < 5 ∨ row.getD 0 "" = "" ∨ row.getD 1 "" = "" ∨
        row.getD 2 "" = "" ∨ row.getD 4 "" = "") ∧
    (parseVideoRow row = some vd →
      vd.tags = (if row.getD 3 "" = "" then []
                 else (jsSplitComma (row.getD 3 "")).map jsTrim)) := by
  rcases row with _ | ⟨a, _ | ⟨b, _ | ⟨c, _ | ⟨d, _ | ⟨e, rest⟩⟩⟩⟩⟩
  · simp [parseVideoRow]
  · simp [parseVideoRow]
  · simp [parseVideoRow]
  · simp [parseVideoRow]
  · simp [parseVideoRow]
  · constructor
    · by_cases hcond : a = "" ∨ b = "" ∨ c = "" ∨ e = ""
      · have hnone : parseVideoRow (a :: b :: c :: d :: e :: rest) = none := by
          simp only [parseVideoRow]
          rw [if_pos hcond]
        rw [hnone]
        refine ⟨fun _ => ?_, fun _ => rfl⟩
        simp only [List.getD_cons_succ, List.getD_cons_zero]
        tauto
      · simp only [parseVideoRow, if_neg hcond, List.length_cons]
        constructor
        · intro hx
          exact absurd hx (by simp)
        · intro hx
          simp only [List.getD_cons_succ, List.getD_cons_zero] at hx
          rcases hx with hx | hx | hx | hx | hx
          · omega
          · exact absurd (Or.inl hx) hcond
          · exact absurd (Or.inr (Or.inl hx)) hcond
          · exact absurd (Or.inr (Or.inr (Or.inl hx))) hcond
          · exact absurd (Or.inr (Or.inr (Or.inr hx))) hcond
    · intro hv
      simp only [parseVideoRow] at hv
      by_cases hcond : a = "" ∨ b = "" ∨ c = "" ∨ e = ""
      · rw [if_pos hcond] at hv
        cases hv
      · rw [if_neg hcond] at hv
        obtain rfl := Option.some.inj hv
        simp [List.getD_cons_succ, List.getD_cons_zero]

/-- Witness for C9: a full instantiation at the row
["d", "t", "s", "a, b", "id"] and its parsed item. -/
theorem c9_parse_row_spec_witness :
    (parseVideoRow ["d", "t", "s", "a, b", "id"] = none ↔
      (["d", "t", "s", "a, b", "id"] : List String).length < 5 ∨
        (["d", "t", "s", "a, b", "id"] : List String).getD 0 "" = "" ∨
        (["d", "t", "s", "a, b", "id"] : List String).getD 1 "" = "" ∨
        (["d", "t", "s", "a, b", "id"] : List String).getD 2 "" = "" ∨
        (["d", "t", "s", "a, b", "id"] : List String).getD 4 "" = "") ∧
    (parseVideoRow ["d", "t", "s", "a, b", "id"] =
        some { driveLink := "d", title := "t", description := "s",
               tags := ["a", "b"], uniqueId := "id" } →
      ({ driveLink := "d", title := "t", description := "s",
         tags := ["a", "b"], uniqueId := "id" } : VideoData).tags =
        (if (["d", "t", "s", "a, b", "id"] : List String).getD 3 "" = "" then []
         else (jsSplitComma ((["d", "t", "s", "a, b", "id"] : List String).getD 3 "")).map
           jsTrim)) :=
  c9_parse_row_spec ["d", "t", "s", "a, b", "id"]
    { driveLink := "d", title := "t", description := "s",
      tags := ["a", "b"], uniqueId := "id" }

/-- Splitting never yields the empty list of segments. -/
theorem splitCommaAux_ne_nil (cs : List Char) : ∀ acc, splitCommaAux cs acc ≠ [] := by
  induction cs with
  | nil => intro acc h; exact absurd h (by simp [splitCommaAux])
  | cons c cs ih =>
    intro acc
    by_cases hc : c = ','
    · simp [splitCommaAux, hc]
    · simpa [splitCommaAux, hc] using ih (c :: acc)

/-- `split(',')` of any string has at least one segment. -/
theorem jsSplitComma_ne_nil (s : String) : jsSplitComma s ≠ [] :=
  splitCommaAux_ne_nil s.data []

/-- The tags of any successfully parsed row, as a function of the tags
cell. -/
theorem parseVideoRow_some_tags (row : List String) (vd : VideoData)
    (h : parseVideoRow row = some vd) :
    vd.tags = (if row.getD 3 "" = "" then []
               else (jsSplitComma (row.getD 3 "")).map jsTrim) := by
  rcases row with _ | ⟨a, _ | ⟨b, _ | ⟨c, _ | ⟨d, _ | ⟨e, rest⟩⟩⟩⟩⟩ <;>
    simp only [parseVideoRow] at h
  iterate 5 exact absurd h (by simp)
  by_cases hcond : a = "" ∨ b = "" ∨ c = "" ∨ e = ""
  · rw [if_pos hcond] at h
    cases h
  · rw [if_neg hcond] at h
    obtain rfl := Option.some.inj h
    simp [List.getD_cons_succ, List.getD_cons_zero]

/-- C10: for every row that parses, the tags are exactly the comma-split,
trimmed segments of the tags cell — empty segments included, one segment
per delimiter-separated position — and a non-empty tags cell (even one
holding only whitespace) always yields at least one tag, so only a
completely empty tags cell produces the empty tag list. -/
theorem c10_tags_preserve_empties (row : List String) (vd : VideoData)
    (h : parseVideoRow row = some vd) :
    vd.tags = (if row.getD 3 "" = "" then []
               else (jsSplitComma (row.getD 3 "")).map jsTrim) ∧
    (row.getD 3 "" ≠ "" →
      vd.tags ≠ [] ∧ vd.tags.length = (jsSplitComma (row.getD 3 "")).length) := by
  have htags := parseVideoRow_some_tags row vd h
  refine ⟨htags, ?_⟩
  intro hd
  rw [htags, if_neg hd]
  constructor
  · intro hx
    exact jsSplitComma_ne_nil (row.getD 3 "") (List.map_eq_nil_iff.mp hx)
  · exact List.length_map _ _

/-- Witness for C10 at the row whose tags cell is "a,,b," — the parsed
tags keep the empty segments at their positions. -/
theorem c10_tags_preserve_empties_witness :
    (({ driveLink := "d", title := "t", description := "s",
        tags := ["a", "", "b", ""], uniqueId := "id" } : VideoData).tags =
      (if (["d", "t", "s", "a,,b,", "id"] : List String).getD 3 "" = "" then []
       else (jsSplitComma ((["d", "t", "s", "a,,b,", "id"] : List String).getD 3 "")).map
         jsTrim)) ∧
    ((["d", "t", "s", "a,,b,", "id"] : List String).getD 3 "" ≠ "" →
      ({ driveLink := "d", title := "t", description := "s",
         tags := ["a", "", "b", ""], uniqueId := "id" } : VideoData).tags ≠ [] ∧
      ({ driveLink := "d", title := "t", description := "s",
         tags := ["a", "", "b", ""], uniqueId := "id" } : VideoData).tags.length =
        (jsSplitComma ((["d", "t", "s", "a,,b,", "id"] : List String).getD 3 "")).length) :=
  c10_tags_preserve_empties ["d", "t", "s", "a,,b,", "id"]
    { driveLink := "d", title := "t", description := "s",
      tags := ["a", "", "b", ""], uniqueId := "id" } (by decide)

